import Mathlib

/-!
Verification of the ccmonitor session registry and realtime multiplexing
layer. The definitions below are a shallow embedding of the server code:

* `packages/server/src/sessionManager.ts` — `SessionManager` (sessions map,
  output buffers, status updates, cwd lookup);
* `packages/server/src/historyManager.ts` — `HistoryManager` (history list,
  `saveSession`, `updateSessionStatus`, `endSession`, `getHistory`);
* `packages/server/src/app.ts` — the `POST /api/notify` handler;
* `packages/server/src/index.ts` — the WebSocket `subscribe` handler and the
  per-session data fan-out.

JavaScript `Map`s are modelled as association lists in insertion order
(`Map` iteration order is insertion order, and `set` on an existing key
keeps its position). Strings that only flow through the system are `String`;
terminal output is `List Char` (one entry per UTF-16 unit). Timestamps
(`Date` / ISO strings) are `Nat`, passed explicitly where the code reads the
clock. The node-pty handle carries no registry-visible state, so pty calls
are recorded as explicit `Effect`s instead.
-/

namespace CCMonitor

/-- The status union from sessionManager.ts line 5. -/
inductive SessionStatus where
  | running
  | waiting
  | completed
deriving DecidableEq, Repr

/-- A registry entry (`Session` in sessionManager.ts). The `pty` field of the
source is an exogenous process handle and is omitted; operations on it are
captured as `Effect`s. -/
structure Session where
  id : String
  cwd : String
  status : SessionStatus
  createdAt : Nat
deriving DecidableEq, Repr

/-- Calls the manager makes on exogenous pty processes. -/
inductive Effect where
  | ptyWrite (id : String) (data : List Char)
  | ptyResize (id : String) (cols rows : Nat)
  | ptyKill (id : String)
deriving DecidableEq, Repr

/-- The mutable state of `SessionManager`: the `sessions` map and the
`outputBuffers` map, both in insertion order. (The `onData` / `onExit`
callback maps live in the broadcast layer model below.) -/
structure ManagerState where
  sessions : List Session
  outputBuffers : List (String × List Char)
deriving DecidableEq, Repr

/-- `MAX_BUFFER_SIZE = 50 * 1024` (sessionManager.ts line 23). -/
def MAX_BUFFER_SIZE : Nat := 50 * 1024

/-- `this.sessions.get(id)` (first — and in practice only — entry with this
key). -/
def getSession (st : ManagerState) (id : String) : Option Session :=
  st.sessions.find? (fun s => s.id == id)

/-- Lookup in the `outputBuffers` map. -/
def lookupBuffer (bufs : List (String × List Char)) (id : String) : Option (List Char) :=
  (bufs.find? (fun p => p.fst == id)).map Prod.snd

/-- `getOutputBuffer(id)` (sessionManager.ts lines 139-141). -/
def getOutputBuffer (st : ManagerState) (id : String) : Option (List Char) :=
  lookupBuffer st.outputBuffers id

/-- In-place mutation of the first (only) map entry with the given id,
modelling `session.status = ...` on the object stored in the `Map`. -/
def replaceById (sessions : List Session) (id : String) (f : Session → Session) : List Session :=
  match sessions with
  | [] => []
  | s :: rest => if s.id == id then f s :: rest else s :: replaceById rest id f

/-- `updateStatus(id, status)` (sessionManager.ts lines 175-180): returns
false if the id is unknown, otherwise assigns the status unconditionally. -/
def updateStatus (st : ManagerState) (id : String) (status : SessionStatus) : ManagerState × Bool :=
  match getSession st id with
  | none => (st, false)
  | some _ =>
      ({ st with sessions := replaceById st.sessions id (fun s => { s with status := status }) },
       true)

/-- `write(id, data)` (sessionManager.ts lines 101-106): false when the id is
unknown, otherwise `session.pty.write(data)` and true. The manager state is
not changed, so the result is just the emitted effects and the Bool. -/
def write (st : ManagerState) (id : String) (data : List Char) : List Effect × Bool :=
  match getSession st id with
  | none => ([], false)
  | some _ => ([Effect.ptyWrite id data], true)

/-- `deleteSession(id)` (sessionManager.ts lines 121-134): kill the pty,
drop callbacks and buffer, remove the map entry. -/
def deleteSession (st : ManagerState) (id : String) : ManagerState × List Effect × Bool :=
  match getSession st id with
  | none => (st, [], false)
  | some _ =>
      ({ sessions := st.sessions.filter (fun s => s.id != id),
         outputBuffers := st.outputBuffers.filter (fun p => p.fst != id) },
       [Effect.ptyKill id], true)

/-- `cwd.toLowerCase()`, one `Char.toLower` per UTF-16 unit. -/
def toLowerStr (s : String) : String :=
  String.mk (s.data.map Char.toLower)

/-- `.replace(/\//g, "\\")`: every forward slash becomes a backslash. -/
def replaceSlashes (s : String) : String :=
  String.mk (s.data.map (fun c => if c == '/' then '\\' else c))

/-- The normalization both sides of `findSessionByCwd` undergo
(sessionManager.ts lines 162 and 164). -/
def normalizeCwd (cwd : String) : String :=
  replaceSlashes (toLowerStr cwd)

/-- `findSessionByCwd(cwd)` (sessionManager.ts lines 161-170): first session
in map iteration (= insertion = creation) order whose normalized cwd equals
the normalized argument. -/
def findSessionByCwd (st : ManagerState) (cwd : String) : Option Session :=
  st.sessions.find? (fun s => normalizeCwd s.cwd == normalizeCwd cwd)

/-- The buffer update inside the `ptyProcess.onData` handler
(sessionManager.ts lines 61-68): append, then keep only the last
`MAX_BUFFER_SIZE` characters (`buffer.slice(-MAX_BUFFER_SIZE)`). -/
def appendChunk (buffer data : List Char) : List Char :=
  let b := buffer ++ data
  if b.length > MAX_BUFFER_SIZE then b.drop (b.length - MAX_BUFFER_SIZE) else b

/-- Write-through of a buffer map entry (`this.outputBuffers.set(id, buffer)`). -/
def setBuffer (bufs : List (String × List Char)) (id : String) (b : List Char) : List (String × List Char) :=
  match bufs with
  | [] => [(id, b)]
  | p :: rest => if p.fst == id then (id, b) :: rest else p :: setBuffer rest id b

/-- The whole `onData` buffer maintenance for one chunk:
`this.outputBuffers.get(id) || ""`, append, truncate, `set`. -/
def handleData (st : ManagerState) (id : String) (data : List Char) : ManagerState :=
  let buffer := (getOutputBuffer st id).getD []
  { st with outputBuffers := setBuffer st.outputBuffers id (appendChunk buffer data) }

/-- A history record (`SessionHistory` of the shared package, as produced by
`toSessionHistory` and stored by `HistoryManager`). `endedAt` is optional. -/
structure SessionHistory where
  id : String
  cwd : String
  status : SessionStatus
  createdAt : Nat
  endedAt : Option Nat
  outputSize : Nat
deriving DecidableEq, Repr

/-- In-place mutation of the first record with the given id, modelling
`const session = this.history.find(h => h.id === id); if (session) ...`. -/
def updateFirstById (history : List SessionHistory) (id : String) (f : SessionHistory → SessionHistory) : List SessionHistory :=
  match history with
  | [] => []
  | h :: rest => if h.id == id then f h :: rest else h :: updateFirstById rest id f

/-- `saveSession(session)` (historyManager.ts lines 44-56): `findIndex` on
the id; if found, assign the record at that index, else push at the end. -/
def saveSession (history : List SessionHistory) (session : SessionHistory) : List SessionHistory :=
  match history with
  | [] => [session]
  | h :: rest =>
      if h.id == session.id then session :: rest else h :: saveSession rest session

/-- `updateSessionStatus(id, status, outputSize?)` (historyManager.ts lines
61-74): no-op when the id is absent; otherwise mutate status and, when
given, outputSize. -/
def updateSessionStatus (history : List SessionHistory) (id : String) (status : SessionStatus) (outputSize : Option Nat) : List SessionHistory :=
  updateFirstById history id (fun h =>
    { h with
        status := status,
        outputSize := match outputSize with | some n => n | none => h.outputSize })

/-- `endSession(id, outputSize?)` (historyManager.ts lines 79-89): mark the
record completed and stamp `endedAt` with the current time (`now`,
modelling `new Date().toISOString()`). No-op when the id is absent. -/
def endSession (history : List SessionHistory) (id : String) (now : Nat) (outputSize : Option Nat) : List SessionHistory :=
  updateFirstById history id (fun h =>
    { h with
        status := SessionStatus.completed,
        endedAt := some now,
        outputSize := match outputSize with | some n => n | none => h.outputSize })

/-- `getHistory()` (historyManager.ts lines 94-96): a shallow copy of the
list, which has value semantics here. -/
def getHistory (history : List SessionHistory) : List SessionHistory :=
  history

/-- Messages the server sends to websocket clients (only the shapes the
claims mention). -/
inductive ServerMsg where
  | sessionData (sessionId : String) (data : List Char)
  | notificationEvt (sessionId : String) (notifyType : String) (status : SessionStatus)
  | errorEvt (message : String) (sessionId : String)
deriving DecidableEq, Repr

/-- Result of one `POST /api/notify` request: the state after the handler,
the broadcasts it emitted, and whether it answered `{success: true}`. -/
structure NotifyResult where
  manager : ManagerState
  history : List SessionHistory
  broadcasts : List ServerMsg
  success : Bool
deriving DecidableEq, Repr

/-- The status mapping of the notify handler (app.ts lines 124-131):
`completed` and `running` map to themselves, anything else to `waiting`. -/
def statusFromNotifyType (notifyType : String) : SessionStatus :=
  if notifyType == "completed" then SessionStatus.completed
  else if notifyType == "running" then SessionStatus.running
  else SessionStatus.waiting

/-- The `POST /api/notify` handler (app.ts lines 117-150) on a well-formed
body: look the session up by cwd; when absent, answer success and do nothing
else; when present, update the registry status, update the history record
(with the current buffer length as outputSize), and broadcast one
notification event carrying the raw type and the mapped status. -/
def handleNotify (mgr : ManagerState) (hist : List SessionHistory) (notifyType cwd : String) : NotifyResult :=
  match findSessionByCwd mgr cwd with
  | none => ⟨mgr, hist, [], true⟩
  | some session =>
      let newStatus := statusFromNotifyType notifyType
      let mgr2 := (updateStatus mgr session.id newStatus).fst
      let outputSize := ((getOutputBuffer mgr2 session.id).getD []).length
      let hist2 := updateSessionStatus hist session.id newStatus (some outputSize)
      ⟨mgr2, hist2, [ServerMsg.notificationEvt session.id notifyType newStatus], true⟩

/-- Observer connections are identified by a number. -/
abbrev ConnId := Nat

/-- One `ws.send` / fan-out delivery: which connection got which message. -/
structure Send where
  conn : ConnId
  msg : ServerMsg
deriving DecidableEq, Repr

/-- The broadcast-layer state of index.ts: the session manager plus the
`sessionSubscriptions` map from session id to subscriber set (a set of
websockets, modelled as a duplicate-free insertion-ordered list). -/
structure WsState where
  manager : ManagerState
  subscriptions : List (String × List ConnId)
deriving DecidableEq, Repr

/-- Adding `ws` to `sessionSubscriptions.get(sessionId)`, creating the set
first when missing (index.ts lines 219-222). -/
def addSubscriber (subs : List (String × List ConnId)) (sessionId : String) (c : ConnId) : List (String × List ConnId) :=
  match subs with
  | [] => [(sessionId, [c])]
  | p :: rest =>
      if p.fst == sessionId then
        (p.fst, if p.snd.contains c then p.snd else p.snd ++ [c]) :: rest
      else p :: addSubscriber rest sessionId c

/-- The subscriber set of a session (empty when the map has no entry). -/
def subscribersOf (st : WsState) (sessionId : String) : List ConnId :=
  ((st.subscriptions.find? (fun p => p.fst == sessionId)).map Prod.snd).getD []

/-- The `case 'subscribe'` branch (index.ts lines 215-237): register the
connection, then, when the session has a non-empty buffer, send that whole
buffer once as `session:data` to this connection only. -/
def handleSubscribe (st : WsState) (c : ConnId) (sessionId : String) : WsState × List Send :=
  let subs2 := addSubscriber st.subscriptions sessionId c
  let sends :=
    match getOutputBuffer st.manager sessionId with
    | some buffer =>
        if buffer.length > 0 then [Send.mk c (ServerMsg.sessionData sessionId buffer)] else []
    | none => []
  ({ st with subscriptions := subs2 }, sends)

/-- A pty `onData` callback firing (index.ts lines 50-56 composed with the
buffer maintenance of sessionManager.ts lines 61-72): append to the buffer,
then send the chunk to exactly the current subscribers of that session. -/
def handlePtyData (st : WsState) (sessionId : String) (data : List Char) : WsState × List Send :=
  let mgr2 := handleData st.manager sessionId data
  let sends := (subscribersOf st sessionId).map (fun c => Send.mk c (ServerMsg.sessionData sessionId data))
  ({ st with manager := mgr2 }, sends)

/-- Events the single-threaded server loop reacts to (the ones the claims
need). -/
inductive ClientEvent where
  | subscribe (conn : ConnId) (sessionId : String)
  | ptyData (sessionId : String) (data : List Char)
deriving DecidableEq, Repr

/-- Dispatch of one event. -/
def stepEvent (st : WsState) (e : ClientEvent) : WsState × List Send :=
  match e with
  | ClientEvent.subscribe c sid => handleSubscribe st c sid
  | ClientEvent.ptyData sid data => handlePtyData st sid data

/-- Run a sequence of events, concatenating the sends in emission order. -/
def runEvents (st : WsState) (es : List ClientEvent) : WsState × List Send :=
  match es with
  | [] => (st, [])
  | e :: rest =>
      let r1 := stepEvent st e
      let r2 := runEvents r1.fst rest
      (r2.fst, r1.snd ++ r2.snd)

/-! Sample states used by concrete witnesses and counterexamples. -/

/-- Sample session created first (insertion position 0). -/
def sessA : Session := ⟨"a", "/x", SessionStatus.running, 0⟩

/-- Sample session created second, with the same working directory. -/
def sessB : Session := ⟨"b", "/x", SessionStatus.running, 1⟩

/-- Sample session with a Windows-style working directory. -/
def sessWin : Session := ⟨"w", "C:\\Proj", SessionStatus.running, 0⟩

/-- Sample broadcast-layer state: one session with a non-empty buffer. -/
def wsSample : WsState := ⟨⟨[sessA], [("a", ['h', 'i'])]⟩, []⟩

/-! Shared lemmas about the registry operations. -/

/-- Replacing the first id-match with an id-preserving function commutes with
the id lookup. -/
lemma find?_replaceById (sessions : List Session) (id : String) (f : Session → Session)
    (hf : ∀ s, (f s).id = s.id) :
    (replaceById sessions id f).find? (fun s => s.id == id)
      = (sessions.find? (fun s => s.id == id)).map f := by
  induction sessions with
  | nil => rfl
  | cons s rest ih =>
      cases hb : (s.id == id) with
      | true =>
          have hfs : ((f s).id == id) = true := by rw [hf]; exact hb
          simp [replaceById, hb, List.find?_cons, hfs]
      | false => simp [replaceById, hb, List.find?_cons, ih]

/-- Observed effect of `updateStatus` on the stored session: the status field
is assigned unconditionally whenever the id exists. -/
lemma getSession_updateStatus (st : ManagerState) (id : String) (status : SessionStatus) :
    getSession (updateStatus st id status).fst id
      = (getSession st id).map (fun s => { s with status := status }) := by
  cases h : getSession st id with
  | none => simp [updateStatus, h]
  | some s =>
      simp only [updateStatus, h]
      have := find?_replaceById st.sessions id (fun s => { s with status := status })
        (fun _ => rfl)
      simp only [getSession] at h ⊢
      rw [this, h]

/-- The Bool `updateStatus` returns is exactly "the id exists". -/
lemma updateStatus_snd (st : ManagerState) (id : String) (status : SessionStatus) :
    (updateStatus st id status).snd = (getSession st id).isSome := by
  cases h : getSession st id with
  | none => simp [updateStatus, h]
  | some s => simp [updateStatus, h]

/-- C1. The claim says a session whose status is `completed` never leaves it.
The code refutes this: `updateStatus` assigns unconditionally, so a completed
session observed right after `updateStatus(id, running)` is `running`. -/
theorem c1_counterexample :
    (getSession (updateStatus ⟨[⟨"a", "/x", SessionStatus.completed, 0⟩], []⟩
          "a" SessionStatus.running).fst "a").map Session.status
        = some SessionStatus.running
    ∧ SessionStatus.running ≠ SessionStatus.completed := by decide

/-- C1 (amended). `updateStatus(id, s)` on an existing session always sets
the observed status to `s` — including overwriting `completed` — and returns
true; only an unknown id leaves the registry unchanged (returning false).
`completed` is not terminal under `updateStatus`. -/
theorem c1_updateStatus_overwrites (st : ManagerState) (id : String) (status : SessionStatus) :
    getSession (updateStatus st id status).fst id
        = (getSession st id).map (fun s => { s with status := status })
    ∧ (updateStatus st id status).snd = (getSession st id).isSome :=
  ⟨getSession_updateStatus st id status, updateStatus_snd st id status⟩

/-- Composing two first-match updates with an id-preserving first function is
one first-match update by the composite. -/
lemma updateFirstById_updateFirstById (hist : List SessionHistory) (id : String)
    (f g : SessionHistory → SessionHistory) (hf : ∀ h, (f h).id = h.id) :
    updateFirstById (updateFirstById hist id f) id g
      = updateFirstById hist id (fun h => g (f h)) := by
  induction hist with
  | nil => rfl
  | cons h rest ih =>
      cases hb : (h.id == id) with
      | true =>
          have hfh : ((f h).id == id) = true := by rw [hf]; exact hb
          simp [updateFirstById, hb, hfh]
      | false => simp [updateFirstById, hb, ih]

/-- C2. The claim says the first `endedAt` wins and the second `endSession`
does not change it. The code refutes this: the second call stamps a fresh
timestamp, so after ending at time 1 and again at time 2 the record holds
`endedAt = 2`, not the first call's 1. -/
theorem c2_counterexample :
    ((endSession (endSession [⟨"a", "/x", SessionStatus.running, 0, none, 0⟩] "a" 1 none)
          "a" 2 none).find? (fun h => h.id == "a")).map SessionHistory.endedAt
        = some (some 2)
    ∧ (some (some 2) : Option (Option Nat)) ≠ some (some 1) := by decide

/-- C2 (amended). Calling `endSession(id)` twice in a row leaves exactly one
`endedAt` timestamp, but the last write wins: the double call is equal to a
single `endSession` performed at the second call's time, so the second call
rewrites the same terminal fields with its own (fresh) `endedAt`. -/
theorem c2_endSession_lastWriteWins (hist : List SessionHistory) (id : String)
    (t1 t2 : Nat) (outputSize : Option Nat) :
    endSession (endSession hist id t1 outputSize) id t2 outputSize
      = endSession hist id t2 outputSize := by
  unfold endSession
  rw [updateFirstById_updateFirstById]
  · congr 1
    funext h
    cases outputSize <;> rfl
  · intro h
    cases outputSize <;> rfl

/-- Among the elements of a createdAt-sorted list, `find?` returns a match
whose `createdAt` is minimal over all matches. -/
lemma find?_pairwise_min (p : Session → Bool) :
    ∀ l : List Session, l.Pairwise (fun a b => a.createdAt ≤ b.createdAt) →
      ∀ s ∈ l, p s = true →
        ∃ r, l.find? p = some r ∧ p r = true ∧ r.createdAt ≤ s.createdAt := by
  intro l
  induction l with
  | nil => intro _ s hs _; cases hs
  | cons a rest ih =>
      intro hsort s hs hp
      cases hpa : p a with
      | true =>
          refine ⟨a, List.find?_cons_of_pos _ hpa, hpa, ?_⟩
          rcases List.mem_cons.mp hs with h | h
          · rw [h]
          · exact (List.pairwise_cons.mp hsort).1 s h
      | false =>
          have hsr : s ∈ rest := by
            rcases List.mem_cons.mp hs with h | h
            · rw [h] at hp; rw [hp] at hpa; cases hpa
            · exact h
          obtain ⟨r, h1, h2, h3⟩ := ih (List.pairwise_cons.mp hsort).2 s hsr hp
          exact ⟨r, by rw [List.find?_cons_of_neg _ (by simp [hpa])]; exact h1, h2, h3⟩

/-- C3. The claim says that when normalized directories collide, the most
recently created matching session wins. The code refutes this: `sessB` is
created after `sessA` in the same directory, yet `findSessionByCwd` returns
the earlier `sessA` (first in map iteration order). -/
theorem c3_counterexample :
    findSessionByCwd ⟨[sessA, sessB], []⟩ "/x" = some sessA
    ∧ sessA ≠ sessB
    ∧ sessA.createdAt < sessB.createdAt := by decide

/-- C3 (amended). When several registered sessions share a normalized working
directory, `findSessionByCwd` returns the EARLIEST-created matching session:
in a registry whose sessions are listed in nondecreasing creation order (the
order `createSession` produces), the returned match's `createdAt` is at most
that of every matching session. -/
theorem c3_firstMatchWins (st : ManagerState) (cwd : String)
    (hsort : st.sessions.Pairwise (fun a b => a.createdAt ≤ b.createdAt))
    (s : Session) (hs : s ∈ st.sessions)
    (hm : normalizeCwd s.cwd = normalizeCwd cwd) :
    ∃ r, findSessionByCwd st cwd = some r
      ∧ normalizeCwd r.cwd = normalizeCwd cwd
      ∧ r.createdAt ≤ s.createdAt := by
  have hp : (fun x : Session => normalizeCwd x.cwd == normalizeCwd cwd) s = true := by
    simp [hm]
  obtain ⟨r, h1, h2, h3⟩ :=
    find?_pairwise_min (fun x : Session => normalizeCwd x.cwd == normalizeCwd cwd)
      st.sessions hsort s hs hp
  exact ⟨r, h1, by simpa using h2, h3⟩

/-- Concrete instantiation of the previous theorem: two colliding sessions in
creation order, applied at the later-created one. -/
theorem c3_firstMatchWins_witness :
    ∃ r, findSessionByCwd ⟨[sessA, sessB], []⟩ "/x" = some r
      ∧ normalizeCwd r.cwd = normalizeCwd "/x"
      ∧ r.createdAt ≤ sessB.createdAt :=
  c3_firstMatchWins ⟨[sessA, sessB], []⟩ "/x" (by decide) sessB (by decide) (by decide)

/-- After `deleteSession id`, the registry holds no session with that id. -/
lemma getSession_deleteSession (st : ManagerState) (id : String) :
    getSession (deleteSession st id).fst id = none := by
  cases h : getSession st id with
  | none => simp [deleteSession, h]
  | some s =>
      simp only [deleteSession, h]
      simp only [getSession]
      rw [List.find?_eq_none]
      intro x hx
      have := (List.mem_filter.mp hx).2
      simp only [bne_iff_ne, ne_eq] at this
      simp [this]

/-- C4. The claim says `write` returns false (and performs no pty side
effect) when the session's process is no longer live, e.g. when its status is
`completed`. The code refutes this: `write` checks only registry membership,
so on a registered but completed session it still forwards the bytes to the
pty and returns true. -/
theorem c4_counterexample :
    write ⟨[⟨"a", "/x", SessionStatus.completed, 0⟩], []⟩ "a" ['h', 'i']
        = ([Effect.ptyWrite "a" ['h', 'i']], true)
    ∧ ([Effect.ptyWrite "a" ['h', 'i']], true) ≠ (([] : List Effect), false) := by decide

/-- C4 (amended). `write(id, data)` returns false with no side effect exactly
when the id is absent from the registry — liveness/status is not consulted,
so a registered `completed` session still gets the bytes and true. In
particular, after `deleteSession(id)` every `write(id, _)` (hence every
sequence of them, since `write` never mutates the registry) returns false and
emits no effect. -/
theorem c4_write_membershipOnly (st : ManagerState) (id : String) (data : List Char) :
    write st id data
        = (if (getSession st id).isSome then ([Effect.ptyWrite id data], true)
           else ([], false))
    ∧ write (deleteSession st id).fst id data = ([], false) := by
  constructor
  · cases h : getSession st id <;> simp [write, h]
  · simp [write, getSession_deleteSession]

/-- One truncating append, written as a plain suffix of the concatenation:
`appendChunk` always keeps the final `min cap length` characters. -/
lemma appendChunk_eq_drop (buffer data : List Char) :
    appendChunk buffer data
      = (buffer ++ data).drop ((buffer ++ data).length - MAX_BUFFER_SIZE) := by
  simp only [appendChunk]
  split
  · rfl
  · rename_i h
    have h0 : (buffer ++ data).length - MAX_BUFFER_SIZE = 0 := by omega
    rw [h0, List.drop_zero]

/-- Truncating a suffix-truncated list extended by a chunk equals truncating
the full extension: the cap-suffix operation absorbs its own iteration. -/
lemma drop_cap_append (a d : List Char) :
    (a.drop (a.length - MAX_BUFFER_SIZE) ++ d).drop
        ((a.drop (a.length - MAX_BUFFER_SIZE) ++ d).length - MAX_BUFFER_SIZE)
      = (a ++ d).drop ((a ++ d).length - MAX_BUFFER_SIZE) := by
  have hk : a.length - MAX_BUFFER_SIZE ≤ a.length := Nat.sub_le _ _
  have h1 : a.drop (a.length - MAX_BUFFER_SIZE) ++ d
      = (a ++ d).drop (a.length - MAX_BUFFER_SIZE) :=
    (List.drop_append_of_le_length hk).symm
  rw [h1, List.drop_drop]
  have hidx : a.length - MAX_BUFFER_SIZE
        + (((a ++ d).drop (a.length - MAX_BUFFER_SIZE)).length - MAX_BUFFER_SIZE)
      = (a ++ d).length - MAX_BUFFER_SIZE := by
    rw [List.length_drop, List.length_append]
    omega
  rw [hidx]

/-- Folding the `onData` buffer update over any chunk sequence, starting from
a cap-suffix of `acc`, yields the cap-suffix of `acc` followed by all the
chunks. -/
lemma foldl_appendChunk (chunks : List (List Char)) :
    ∀ acc : List Char,
      chunks.foldl appendChunk (acc.drop (acc.length - MAX_BUFFER_SIZE))
        = (acc ++ chunks.flatten).drop ((acc ++ chunks.flatten).length - MAX_BUFFER_SIZE) := by
  induction chunks with
  | nil =>
      intro acc
      rw [List.flatten_nil, List.append_nil, List.foldl_nil]
  | cons d rest ih =>
      intro acc
      rw [List.foldl_cons, appendChunk_eq_drop, drop_cap_append, ih (acc ++ d),
        List.flatten_cons, ← List.append_assoc]

/-- C5. Accumulating any sequence of output chunks through the `onData`
buffer maintenance leaves exactly the final cap-length suffix of the full
concatenation: the buffer equals `drop (total - cap)` of the concatenation
(which is the whole concatenation when the total is at most the cap), and its
length is `min cap total`, i.e. exactly the cap once the total exceeds it. -/
theorem c5_buffer_is_cap_suffix (chunks : List (List Char)) :
    chunks.foldl appendChunk []
        = chunks.flatten.drop (chunks.flatten.length - MAX_BUFFER_SIZE)
    ∧ (chunks.foldl appendChunk []).length
        = min MAX_BUFFER_SIZE chunks.flatten.length := by
  have h := foldl_appendChunk chunks []
  simp only [List.length_nil, Nat.zero_sub, List.drop_zero, List.nil_append] at h
  refine ⟨h, ?_⟩
  rw [h, List.length_drop]
  omega

/-- C6. A connection subscribing to a session whose buffer is non-empty
receives, as the very first delivery after the subscription, exactly one
replay event carrying the whole current buffer, addressed to that connection
only; every send produced by later events (in particular live `session:data`)
comes strictly after it in the delivery trace. -/
theorem c6_replay_on_subscribe (st : WsState) (c : ConnId) (sid : String)
    (buffer : List Char) (es : List ClientEvent)
    (hbuf : getOutputBuffer st.manager sid = some buffer)
    (hne : buffer.length > 0) :
    (stepEvent st (ClientEvent.subscribe c sid)).snd
        = [Send.mk c (ServerMsg.sessionData sid buffer)]
    ∧ (runEvents st (ClientEvent.subscribe c sid :: es)).snd
        = Send.mk c (ServerMsg.sessionData sid buffer)
          :: (runEvents (stepEvent st (ClientEvent.subscribe c sid)).fst es).snd := by
  have h1 : (stepEvent st (ClientEvent.subscribe c sid)).snd
      = [Send.mk c (ServerMsg.sessionData sid buffer)] := by
    simp [stepEvent, handleSubscribe, hbuf, hne]
  refine ⟨h1, ?_⟩
  rw [runEvents]
  simp [h1]

/-- Concrete instantiation of the replay-on-subscribe theorem: connection 7
subscribes to session "a" (buffered "hi"), followed by a live data event. -/
theorem c6_replay_on_subscribe_witness :
    (stepEvent wsSample (ClientEvent.subscribe 7 "a")).snd
        = [Send.mk 7 (ServerMsg.sessionData "a" ['h', 'i'])]
    ∧ (runEvents wsSample (ClientEvent.subscribe 7 "a" :: [ClientEvent.ptyData "a" ['x']])).snd
        = Send.mk 7 (ServerMsg.sessionData "a" ['h', 'i'])
          :: (runEvents (stepEvent wsSample (ClientEvent.subscribe 7 "a")).fst
                [ClientEvent.ptyData "a" ['x']]).snd :=
  c6_replay_on_subscribe wsSample 7 "a" ['h', 'i'] [ClientEvent.ptyData "a" ['x']]
    (by decide) (by decide)

/-- C7. A notification whose directory matches no registered session answers
`{success: true}` and changes nothing: the registry and the history are
returned untouched and the broadcast list is empty. -/
theorem c7_unmatched_notify_noop (mgr : ManagerState) (hist : List SessionHistory)
    (notifyType cwd : String)
    (h : findSessionByCwd mgr cwd = none) :
    handleNotify mgr hist notifyType cwd = ⟨mgr, hist, [], true⟩ := by
  simp [handleNotify, h]

/-- Concrete instantiation: a registry monitoring "/x" receives a
notification for the unmonitored "/other". -/
theorem c7_unmatched_notify_noop_witness :
    handleNotify ⟨[sessA], []⟩ [] "waiting" "/other" = ⟨⟨[sessA], []⟩, [], [], true⟩ :=
  c7_unmatched_notify_noop ⟨[sessA], []⟩ [] "waiting" "/other" (by decide)

/-- Directory lookup only sees the normalized argument, so arguments with the
same normalization are interchangeable. -/
lemma findSessionByCwd_congr (st : ManagerState) (d1 d2 : String)
    (h : normalizeCwd d1 = normalizeCwd d2) :
    findSessionByCwd st d1 = findSessionByCwd st d2 := by
  unfold findSessionByCwd
  rw [h]

/-- C8. Directory matching lowercases both sides and identifies the two
separators: whatever session the registry resolves for the exact creation
directory `C:\Proj`, the queries `C:/Proj` and `c:\PROJ` resolve to that same
session. -/
theorem c8_separator_case_insensitive (st : ManagerState) (s : Session)
    (h : findSessionByCwd st "C:\\Proj" = some s) :
    findSessionByCwd st "C:/Proj" = some s
    ∧ findSessionByCwd st "c:\\PROJ" = some s := by
  constructor
  · rw [findSessionByCwd_congr st "C:/Proj" "C:\\Proj" (by decide)]
    exact h
  · rw [findSessionByCwd_congr st "c:\\PROJ" "C:\\Proj" (by decide)]
    exact h

/-- Concrete instantiation: a registry holding a session created with
`C:\Proj` resolves both spellings to it. -/
theorem c8_separator_case_insensitive_witness :
    findSessionByCwd ⟨[sessWin], []⟩ "C:/Proj" = some sessWin
    ∧ findSessionByCwd ⟨[sessWin], []⟩ "c:\\PROJ" = some sessWin :=
  c8_separator_case_insensitive ⟨[sessWin], []⟩ sessWin (by decide)

/-- C9. `saveSession` is an upsert on the id: when the id is already present
the store keeps its length (in-place replacement), otherwise it grows by
exactly one (append); in both cases the record subsequently found under that
id is exactly the one passed to the call. -/
theorem c9_saveSession_upsert (hist : List SessionHistory) (r : SessionHistory) :
    (getHistory (saveSession hist r)).length
        = (if (hist.find? (fun h => h.id == r.id)).isSome
            then (getHistory hist).length
            else (getHistory hist).length + 1)
    ∧ (saveSession hist r).find? (fun h => h.id == r.id) = some r := by
  induction hist with
  | nil => simp [saveSession, getHistory]
  | cons h rest ih =>
      cases hb : (h.id == r.id) with
      | true => simp [saveSession, getHistory, List.find?_cons, hb]
      | false =>
          simp only [saveSession, getHistory, hb, Bool.false_eq_true, if_false,
            List.find?_cons, List.length_cons] at ih ⊢
          exact ⟨by rw [ih.1]; split <;> omega, ih.2⟩

/-- C10. A matched notification whose type is neither `completed` nor
`running` — any other string, not only the documented `waiting` — sets the
matched session's status to `waiting` and broadcasts exactly one notification
event whose `notifyType` is the original string and whose status is
`waiting`. -/
theorem c10_unknown_type_maps_to_waiting (mgr : ManagerState) (hist : List SessionHistory)
    (notifyType cwd : String) (s : Session)
    (h1 : notifyType ≠ "completed") (h2 : notifyType ≠ "running")
    (hfind : findSessionByCwd mgr cwd = some s) :
    (handleNotify mgr hist notifyType cwd).broadcasts
        = [ServerMsg.notificationEvt s.id notifyType SessionStatus.waiting]
    ∧ ∃ t, getSession (handleNotify mgr hist notifyType cwd).manager s.id = some t
        ∧ t.status = SessionStatus.waiting := by
  have hstat : statusFromNotifyType notifyType = SessionStatus.waiting := by
    simp [statusFromNotifyType, h1, h2]
  have hmem : s ∈ mgr.sessions := List.mem_of_find?_eq_some hfind
  have hsome : (getSession mgr s.id).isSome = true := by
    rw [getSession, List.find?_isSome]
    exact ⟨s, hmem, by simp⟩
  obtain ⟨t, ht⟩ := Option.isSome_iff_exists.mp hsome
  constructor
  · simp [handleNotify, hfind, hstat]
  · refine ⟨{ t with status := SessionStatus.waiting }, ?_, rfl⟩
    simp only [handleNotify, hfind, hstat]
    rw [getSession_updateStatus, ht]
    rfl

/-- Concrete instantiation: the undocumented type "permission" lands a
matched session in `waiting` and is echoed back in the broadcast. -/
theorem c10_unknown_type_maps_to_waiting_witness :
    (handleNotify ⟨[sessA], []⟩ [] "permission" "/x").broadcasts
        = [ServerMsg.notificationEvt sessA.id "permission" SessionStatus.waiting]
    ∧ ∃ t, getSession (handleNotify ⟨[sessA], []⟩ [] "permission" "/x").manager sessA.id
          = some t
        ∧ t.status = SessionStatus.waiting :=
  c10_unknown_type_maps_to_waiting ⟨[sessA], []⟩ [] "permission" "/x" sessA
    (by decide) (by decide) (by decide)

end CCMonitor
